import Mathlib

/-!
# Verification of the authn-server core: account repository and security configuration

This file gives a shallow embedding, in Lean 4, of the two source files of the
repository: the postgres account store (`data/postgres/account_store.go`) and the
security configuration loader (`config` package), together with proofs settling
the specification's claims about them.

The relational store is modelled as explicit lists of rows; each SQL statement of
the Go code becomes the corresponding pure list transformation.  Time (`time.Now()`)
and the database's random source (`MD5(RANDOM()::TEXT)`) are passed in as explicit
parameters.  Fallible steps carry explicit error injection mirroring the `error`
results of `database/sql`.
-/

set_option linter.unusedVariables false

namespace Authn

/-! ## The account repository: `data/postgres/account_store.go` -/

/-- A row of the `accounts` table (Go `models.Account`).  Timestamps are abstract
instants modelled as naturals; `deletedAt` is the nullable `deleted_at` column;
`password` is the opaque hashed byte string. -/
structure Account where
  id : Nat
  username : String
  password : List Nat
  locked : Bool
  requireNewPassword : Bool
  passwordChangedAt : Nat
  createdAt : Nat
  updatedAt : Nat
  deletedAt : Option Nat
  deriving Repr, DecidableEq

/-- A row of the `oauth_accounts` table (Go `models.OauthAccount`). -/
structure OauthAccount where
  accountId : Nat
  provider : String
  providerID : String
  accessToken : String
  createdAt : Nat
  updatedAt : Nat
  deriving Repr, DecidableEq

/-- Error kinds reported by the repository (spec section 7 taxonomy). -/
inductive StoreErr
  | notFound
  | constraintViolation
  | storageUnavailable
  deriving Repr, DecidableEq

/-- The backing relational store: the two tables, plus the sequence that assigns
fresh `accounts.id` values (`RETURNING id` of the INSERT). -/
structure Store where
  accounts : List Account
  oauthAccounts : List OauthAccount
  nextId : Nat
  deriving Repr, DecidableEq

/-- `SELECT * FROM accounts WHERE id = $1` resolved by `db.Get`: the first
matching row, or nothing. -/
def lookupAccount (st : Store) (id : Nat) : Option Account :=
  st.accounts.find? (fun a => a.id == id)

/-- `AccountStore.Find`: fetch by id; when the row is soft-deleted the Go code
overwrites `account.Username` with `""` before returning it. -/
def find (st : Store) (id : Nat) : Option Account :=
  match lookupAccount st id with
  | none => none
  | some a => some (if a.deletedAt.isSome then { a with username := "" } else a)

/-- `AccountStore.FindByUsername`:
`SELECT * FROM accounts WHERE username = $1 AND deleted_at IS NULL`. -/
def findByUsername (st : Store) (u : String) : Option Account :=
  st.accounts.find? (fun a => a.username == u && a.deletedAt.isNone)

/-- `AccountStore.FindByOauthAccount`: inner join of `accounts` and
`oauth_accounts` on `a.id = oa.account_id` filtered by provider and provider id;
`db.Get` takes the first result row.  No `deleted_at` filter and no blanking of
the username appears in this query. -/
def findByOauthAccount (st : Store) (provider providerID : String) : Option Account :=
  match st.oauthAccounts.find? (fun oa => oa.provider == provider && oa.providerID == providerID) with
  | none => none
  | some oa => st.accounts.find? (fun a => a.id == oa.accountId)

/-- Modelled from the spec: the `accounts` table's uniqueness constraint on
`username`, enforced only among rows whose `deleted_at` is null (spec section 3
invariant; the SQL schema that declares this partial unique index is not among
the sources, only the INSERT that trips it). -/
def usernameTakenByLive (st : Store) (u : String) : Bool :=
  st.accounts.any (fun a => a.username == u && a.deletedAt.isNone)

/-- The row `Create` inserts: `locked` and `require_new_password` at their Go
zero value `false`, all three timestamps at the call's `time.Now()`, the id from
the store's sequence. -/
def freshAccount (st : Store) (u : String) (p : List Nat) (now : Nat) : Account :=
  { id := st.nextId, username := u, password := p, locked := false,
    requireNewPassword := false, passwordChangedAt := now, createdAt := now,
    updatedAt := now, deletedAt := none }

/-- The store after a successful INSERT of `freshAccount`: row appended, id
sequence advanced. -/
def afterCreate (st : Store) (u : String) (p : List Nat) (now : Nat) : Store :=
  { st with accounts := st.accounts ++ [freshAccount st u p now],
            nextId := st.nextId + 1 }

/-- `AccountStore.Create`: INSERT of the fresh account row; the
duplicate-live-username rejection comes from the modelled schema constraint
`usernameTakenByLive`. -/
def create (st : Store) (u : String) (p : List Nat) (now : Nat) :
    Except StoreErr (Account × Store) :=
  if usernameTakenByLive st u then
    .error .constraintViolation
  else
    .ok (freshAccount st u p now, afterCreate st u p now)

/-- `AccountStore.AddOauthAccount`: INSERT into `oauth_accounts` with both
timestamps at the call's `time.Now()`. -/
def addOauthAccount (st : Store) (accountID : Nat)
    (provider providerID accessToken : String) (now : Nat) : Store :=
  { st with oauthAccounts := st.oauthAccounts ++
      [{ accountId := accountID, provider := provider, providerID := providerID,
         accessToken := accessToken, createdAt := now, updatedAt := now }] }

/-- `AccountStore.GetOauthAccounts`: `SELECT * FROM oauth_accounts WHERE account_id = $1`. -/
def getOauthAccounts (st : Store) (accountID : Nat) : List OauthAccount :=
  st.oauthAccounts.filter (fun oa => oa.accountId == accountID)

/-- An `UPDATE accounts SET ... WHERE id = $n` statement: rewrite every row whose
`id` matches (zero matching rows is not an error). -/
def updateWhere (st : Store) (id : Nat) (f : Account → Account) : Store :=
  { st with accounts := st.accounts.map (fun a => if a.id == id then f a else a) }

/-- First statement of `AccountStore.Archive`:
`DELETE FROM oauth_accounts WHERE account_id = $1`. -/
def deleteOauthAccounts (st : Store) (id : Nat) : Store :=
  { st with oauthAccounts := st.oauthAccounts.filter (fun oa => oa.accountId != id) }

/-- Second statement of `AccountStore.Archive`: the UPDATE that overwrites
`username` with `'@' || MD5(RANDOM()::TEXT)` (the random hex carried in `rand`),
clears `password` to the empty value and stamps `deleted_at`.  Note it does not
touch `require_new_password` or `updated_at`. -/
def archiveUpdate (st : Store) (id : Nat) (rand : String) (now : Nat) : Store :=
  updateWhere st id (fun a =>
    { a with username := "@" ++ rand, password := [], deletedAt := some now })

/-- `AccountStore.Archive`, success path: the DELETE followed by the UPDATE. -/
def archive (st : Store) (id : Nat) (rand : String) (now : Nat) : Store :=
  archiveUpdate (deleteOauthAccounts st id) id rand now

/-- `AccountStore.Archive` with the control flow of the Go code made explicit:
two separate `db.Exec` calls with no surrounding transaction.  Each call can
fail (flags `deleteFails` / `updateFails`); the pair returned is the error the
function reports and the state the database holds afterwards.  When the second
`Exec` fails the first has already committed. -/
def archiveGo (st : Store) (id : Nat) (rand : String) (now : Nat)
    (deleteFails updateFails : Bool) : Option StoreErr × Store :=
  if deleteFails then (some .storageUnavailable, st)
  else
    let st1 := deleteOauthAccounts st id
    if updateFails then (some .storageUnavailable, st1)
    else (none, archiveUpdate st1 id rand now)

/-- `AccountStore.Lock`: `UPDATE accounts SET locked = true, updated_at = $2 WHERE id = $3`. -/
def lock (st : Store) (id now : Nat) : Store :=
  updateWhere st id (fun a => { a with locked := true, updatedAt := now })

/-- `AccountStore.Unlock`: same statement with `locked = false`. -/
def unlock (st : Store) (id now : Nat) : Store :=
  updateWhere st id (fun a => { a with locked := false, updatedAt := now })

/-- `AccountStore.RequireNewPassword`:
`UPDATE accounts SET require_new_password = true, updated_at = $2 WHERE id = $3`. -/
def requireNewPasswordOp (st : Store) (id now : Nat) : Store :=
  updateWhere st id (fun a => { a with requireNewPassword := true, updatedAt := now })

/-- The row rewrite performed by `SetPassword`'s UPDATE. -/
def setPasswordRow (p : List Nat) (now : Nat) (a : Account) : Account :=
  { a with password := p, requireNewPassword := false,
           passwordChangedAt := now, updatedAt := now }

/-- `AccountStore.SetPassword`: replaces the password, writes
`require_new_password = false` and stamps `password_changed_at` and `updated_at`
with the call's current time. -/
def setPassword (st : Store) (id : Nat) (p : List Nat) (now : Nat) : Store :=
  updateWhere st id (setPasswordRow p now)

/-- `AccountStore.UpdateUsername`:
`UPDATE accounts SET username = $1, updated_at = $2 WHERE id = $3`. -/
def updateUsername (st : Store) (id : Nat) (u : String) (now : Nat) : Store :=
  updateWhere st id (fun a => { a with username := u, updatedAt := now })

/-- The effect-producing operations of the account repository, each carrying its
arguments and its clock reading.  The read-only operations (`Find`,
`FindByUsername`, `FindByOauthAccount`, `GetOauthAccounts`) do not appear: their
embeddings return values without producing a new store. -/
inductive Op
  | createOp (u : String) (p : List Nat) (now : Nat)
  | addOauthOp (accountID : Nat) (provider providerID accessToken : String) (now : Nat)
  | archiveOp (id : Nat) (rand : String) (now : Nat)
  | lockOp (id now : Nat)
  | unlockOp (id now : Nat)
  | requireNewPasswordO (id now : Nat)
  | setPasswordOp (id : Nat) (p : List Nat) (now : Nat)
  | updateUsernameOp (id : Nat) (u : String) (now : Nat)
  deriving Repr, DecidableEq

/-- The store transition of one repository operation (success path; a failed
`Create` leaves the store unchanged). -/
def runOp (op : Op) (st : Store) : Store :=
  match op with
  | .createOp u p now =>
      match create st u p now with
      | .ok (_, st') => st'
      | .error _ => st
  | .addOauthOp aid pr pid tok now => addOauthAccount st aid pr pid tok now
  | .archiveOp id rand now => archive st id rand now
  | .lockOp id now => lock st id now
  | .unlockOp id now => unlock st id now
  | .requireNewPasswordO id now => requireNewPasswordOp st id now
  | .setPasswordOp id p now => setPassword st id p now
  | .updateUsernameOp id u now => updateUsername st id u now

/-- Recognizer for the `SetPassword` operation among the repository ops. -/
def Op.isSetPasswordOp : Op → Bool
  | .setPasswordOp _ _ _ => true
  | _ => false

/-! ## Key derivation: `derive` = PBKDF2-HMAC-SHA-256, 2e5 iterations, 256-byte output

The config package's `derive(base, salt)` is
`pbkdf2.Key(base, []byte(salt), 2e5, 256, sha256.New)`.  Bytes are naturals below
256 and 32-bit words are naturals reduced mod `2^32` at every arithmetic step,
exactly where the machine wraps. -/

/-- Truncation to a 32-bit machine word. -/
def w32 (n : Nat) : Nat := n % 4294967296

/-- 32-bit right rotation. -/
def rotr (n x : Nat) : Nat := w32 ((x >>> n) ||| (x <<< (32 - n)))

def bigSigma0 (x : Nat) : Nat := (rotr 2 x) ^^^ (rotr 13 x) ^^^ (rotr 22 x)

def bigSigma1 (x : Nat) : Nat := (rotr 6 x) ^^^ (rotr 11 x) ^^^ (rotr 25 x)

def smallSigma0 (x : Nat) : Nat := (rotr 7 x) ^^^ (rotr 18 x) ^^^ (x >>> 3)

def smallSigma1 (x : Nat) : Nat := (rotr 17 x) ^^^ (rotr 19 x) ^^^ (x >>> 10)

/-- SHA-256 `Ch`; 32-bit complement written as xor with `2^32 - 1`. -/
def chFn (x y z : Nat) : Nat := (x &&& y) ^^^ ((x ^^^ 4294967295) &&& z)

def majFn (x y z : Nat) : Nat := (x &&& y) ^^^ (x &&& z) ^^^ (y &&& z)

/-- The 64 SHA-256 round constants (FIPS 180-4), in decimal. -/
def sha256K : List Nat :=
  [1116352408, 1899447441, 3049323471, 3921009573, 961987163,
   1508970993, 2453635748, 2870763221, 3624381080, 310598401,
   607225278, 1426881987, 1925078388, 2162078206, 2614888103,
   3248222580, 3835390401, 4022224774, 264347078, 604807628,
   770255983, 1249150122, 1555081692, 1996064986, 2554220882,
   2821834349, 2952996808, 3210313671, 3336571891, 3584528711,
   113926993, 338241895, 666307205, 773529912, 1294757372,
   1396182291, 1695183700, 1986661051, 2177026350, 2456956037,
   2730485921, 2820302411, 3259730800, 3345764771, 3516065817,
   3600352804, 4094571909, 275423344, 430227734, 506948616,
   659060556, 883997877, 958139571, 1322822218, 1537002063,
   1747873779, 1955562222, 2024104815, 2227730452, 2361852424,
   2428436474, 2756734187, 3204031479, 3329325298]

/-- Big-endian encoding of `n` on `k` bytes. -/
def natToBytesBE (k n : Nat) : List Nat :=
  match k with
  | 0 => []
  | k + 1 => natToBytesBE k (n / 256) ++ [n % 256]

/-- SHA-256 padding: `0x80`, zeros to 56 mod 64, 8-byte big-endian bit length. -/
def sha256Pad (msg : List Nat) : List Nat :=
  msg ++ [128] ++ List.replicate ((119 - msg.length % 64) % 64) 0
      ++ natToBytesBE 8 (msg.length * 8)

/-- Group bytes into big-endian 32-bit words. -/
def bytesToWords : List Nat → List Nat
  | b0 :: b1 :: b2 :: b3 :: rest =>
      (((b0 * 256 + b1) * 256 + b2) * 256 + b3) :: bytesToWords rest
  | _ => []

/-- Cut a byte stream into 64-byte blocks. -/
def toBlocks : List Nat → List (List Nat)
  | [] => []
  | c :: rest => (c :: rest).take 64 :: toBlocks ((c :: rest).drop 64)
  termination_by l => l.length
  decreasing_by simp [List.length_drop]; omega

/-- The SHA-256 message schedule for one 64-byte block. -/
def msgSchedule (block : List Nat) (i : Nat) : Nat :=
  if i < 16 then (bytesToWords block).getD i 0
  else
    w32 (smallSigma1 (msgSchedule block (i - 2)) + msgSchedule block (i - 7)
      + smallSigma0 (msgSchedule block (i - 15)) + msgSchedule block (i - 16))
  termination_by i
  decreasing_by all_goals omega

/-- The eight-word SHA-256 working state. -/
structure Hash8 where
  a : Nat
  b : Nat
  c : Nat
  d : Nat
  e : Nat
  f : Nat
  g : Nat
  h : Nat
  deriving Repr, DecidableEq

/-- Initial SHA-256 hash value (FIPS 180-4), in decimal. -/
def initH : Hash8 :=
  { a := 1779033703, b := 3144134277, c := 1013904242, d := 2773480762,
    e := 1359893119, f := 2600822924, g := 528734635, h := 1541459225 }

/-- One round of the SHA-256 compression function. -/
def compressRound (blk : List Nat) (s : Hash8) (i : Nat) : Hash8 :=
  let t1 := w32 (s.h + bigSigma1 s.e + chFn s.e s.f s.g + sha256K.getD i 0 + msgSchedule blk i)
  let t2 := w32 (bigSigma0 s.a + majFn s.a s.b s.c)
  { a := w32 (t1 + t2), b := s.a, c := s.b, d := s.c,
    e := w32 (s.d + t1), f := s.e, g := s.f, h := s.g }

/-- Rounds `0 .. n-1` of the compression function, in order. -/
def compressRounds (blk : List Nat) (s : Hash8) : Nat → Hash8
  | 0 => s
  | n + 1 => compressRound blk (compressRounds blk s n) n

/-- Process one block: 64 rounds then the feed-forward addition mod `2^32`. -/
def processBlock (s : Hash8) (blk : List Nat) : Hash8 :=
  let t := compressRounds blk s 64
  { a := w32 (s.a + t.a), b := w32 (s.b + t.b), c := w32 (s.c + t.c),
    d := w32 (s.d + t.d), e := w32 (s.e + t.e), f := w32 (s.f + t.f),
    g := w32 (s.g + t.g), h := w32 (s.h + t.h) }

/-- Final SHA-256 state over a whole message. -/
def sha256Words (msg : List Nat) : Hash8 :=
  (toBlocks (sha256Pad msg)).foldl processBlock initH

/-- Big-endian bytes of one 32-bit word. -/
def wordBytes (w : Nat) : List Nat :=
  [w / 16777216 % 256, w / 65536 % 256, w / 256 % 256, w % 256]

/-- SHA-256 digest, 32 bytes. -/
def sha256 (msg : List Nat) : List Nat :=
  wordBytes (sha256Words msg).a ++ wordBytes (sha256Words msg).b
    ++ wordBytes (sha256Words msg).c ++ wordBytes (sha256Words msg).d
    ++ wordBytes (sha256Words msg).e ++ wordBytes (sha256Words msg).f
    ++ wordBytes (sha256Words msg).g ++ wordBytes (sha256Words msg).h

/-- HMAC key normalisation: hash keys longer than the 64-byte block, then pad
with zeros to block length. -/
def hmacKey0 (key : List Nat) : List Nat :=
  let k := if 64 < key.length then sha256 key else key
  k ++ List.replicate (64 - k.length) 0

/-- HMAC-SHA-256. -/
def hmacSha256 (key msg : List Nat) : List Nat :=
  let k0 := hmacKey0 key
  sha256 ((k0.map (fun b => b ^^^ 92)) ++ sha256 ((k0.map (fun b => b ^^^ 54)) ++ msg))

/-- Inner loop of `pbkdf2.Key`: `n` further iterations folding
`U := HMAC(pw, U)` and `T := T xor U` (Go `for n := 2; n <= iter; n++`). -/
def pbkdf2Iter (pw : List Nat) : Nat → List Nat → List Nat → List Nat
  | 0, _, t => t
  | n + 1, u, t =>
      let u' := hmacSha256 pw u
      pbkdf2Iter pw n u' (List.zipWith (fun a b => a ^^^ b) t u')

/-- One output block `T_i` of PBKDF2: `U_1 = HMAC(pw, salt ∥ INT(i))`, then
`iter - 1` further iterations xored together. -/
def pbkdf2Block (pw salt : List Nat) (iter blockIdx : Nat) : List Nat :=
  let u1 := hmacSha256 pw (salt ++ natToBytesBE 4 blockIdx)
  pbkdf2Iter pw (iter - 1) u1 u1

/-- Concatenation `T_1 ∥ ... ∥ T_n` built by the Go `for block := 1; block <= numBlocks`
loop. -/
def pbkdf2Blocks (pw salt : List Nat) (iter : Nat) : Nat → List Nat
  | 0 => []
  | n + 1 => pbkdf2Blocks pw salt iter n ++ pbkdf2Block pw salt iter (n + 1)

/-- `pbkdf2.Key(password, salt, iter, keyLen, sha256.New)`:
`numBlocks = ceil(keyLen / 32)` blocks, truncated to `keyLen`. -/
def pbkdf2 (pw salt : List Nat) (iter keyLen : Nat) : List Nat :=
  (pbkdf2Blocks pw salt iter ((keyLen + 31) / 32)).take keyLen

/-- Go `[]byte(s)`: the UTF-8 bytes of a string. -/
def strBytes (s : String) : List Nat := s.toUTF8.toList.map (fun b => b.toNat)

/-- The config package's `derive`: PBKDF2-HMAC-SHA-256 with `2e5 = 200000`
iterations and a 256-byte output length. -/
def derive (base : List Nat) (salt : String) : List Nat :=
  pbkdf2 base (strBytes salt) 200000 256

/-- The derived key seen as a function on `Fin 256`, the device used to count
possible outputs of `derive`. -/
def deriveFin (base : List Nat) (s : String) : Fin 256 → Fin 256 :=
  fun i => ⟨(derive base s).getD i 0 % 256, Nat.mod_lt _ (by omega)⟩

/-! ## The security configuration loader -/

/-- Recursive core of Go `strings.Split(s, sep)` for a non-empty separator:
cut around every occurrence of `sep`.  The fuel argument (instantiated with the
length of the string, an upper bound on the recursion) only makes the structural
recursion explicit; it is never exhausted. -/
def splitListF (sep : List Char) : Nat → List Char → List (List Char)
  | _, [] => [[]]
  | 0, l => [l]
  | fuel + 1, c :: rest =>
      if (!sep.isEmpty) && sep.isPrefixOf (c :: rest) then
        [] :: splitListF sep fuel (List.drop (sep.length - 1) rest)
      else
        match splitListF sep fuel rest with
        | [] => [[c]]
        | chunk :: chunks => (c :: chunk) :: chunks

/-- Go `strings.Split(s, sep)`: with an empty separator the string explodes into
its characters, otherwise it is cut around every occurrence of `sep`. -/
def goSplit (s sep : String) : List String :=
  if sep.data.isEmpty then s.data.map (fun c => String.mk [c])
  else (splitListF sep.data s.data.length s.data).map String.mk

/-- Scheme scanner of Go `net/url.Parse` (`getScheme`): letters continue a
scheme; digits and `+ - .` continue it after the first position; `:` at position
zero is the `missing protocol scheme` error; any other character means the URL
has no scheme.  Returns the scheme and the remainder, or `none` on error. -/
def getSchemeAux (orig : List Char) : List Char → List Char → Option (List Char × List Char)
  | [], _ => some ([], orig)
  | c :: rest, acc =>
      if c.isAlpha then getSchemeAux orig rest (c :: acc)
      else if c.isDigit || c == '+' || c == '-' || c == '.' then
        if acc.isEmpty then some ([], orig) else getSchemeAux orig rest (c :: acc)
      else if c == ':' then
        if acc.isEmpty then none else some (acc.reverse, rest)
      else some ([], orig)

/-- The slice of a parsed `net/url.URL` that the loader reads. -/
structure GoURL where
  scheme : String
  host : String
  path : String
  deriving Repr, DecidableEq

/-- Model of the external `net/url.Parse`, restricted to what the loader uses:
scheme detection as in `getScheme` (with its leading-colon `missing protocol
scheme` failure), then `//authority` stripping and the path.  Other stdlib
failure modes (control characters, bad ports) are not modelled; one concrete
failure mode is all the claims need. -/
def urlParse (s : String) : Option GoURL :=
  match getSchemeAux s.data s.data [] with
  | none => none
  | some (scheme, rest) =>
      let hostPath :=
        if rest.take 2 = ['/', '/'] then
          ((rest.drop 2).takeWhile (fun c => c ≠ '/'), (rest.drop 2).dropWhile (fun c => c ≠ '/'))
        else ([], rest)
      some { scheme := String.mk scheme, host := String.mk hostPath.1,
             path := String.mk hostPath.2 }

/-- The `Config` struct of the config package, minus the process-generated
`IdentitySigningKey` (RSA key generation draws from the OS random source and is
performed after `configure`, outside the resolver list).  TTLs are kept in
seconds, the unit the environment supplies. -/
structure Config where
  applicationDomains : List String
  bcryptCost : Int
  usernameIsEmail : Bool
  usernameMinLength : Nat
  usernameDomains : List String
  passwordMinComplexity : Int
  refreshTokenTTL : Int
  redisURL : Option GoURL
  databaseURL : Option GoURL
  sessionSigningKey : List Nat
  authNURL : Option GoURL
  forceSSL : Bool
  mountedPath : String
  accessTokenTTL : Int
  deriving Repr, DecidableEq

/-- The zero-valued `Config` the resolver pipeline starts from. -/
def emptyConfig : Config :=
  { applicationDomains := [], bcryptCost := 0, usernameIsEmail := false,
    usernameMinLength := 0, usernameDomains := [], passwordMinComplexity := 0,
    refreshTokenTTL := 0, redisURL := none, databaseURL := none,
    sessionSigningKey := [], authNURL := none, forceSSL := false,
    mountedPath := "", accessTokenTTL := 0 }

/-- Failures of configuration loading (`ConfigurationInvalid` kinds). -/
inductive ConfigErr
  | missingEnv (name : String)
  | badInt (name : String) (val : String)
  | bcryptCostTooLow (cost : Int)
  deriving Repr, DecidableEq

/-- The read-only environment: a flat mapping from setting name to string value. -/
abbrev Env := String → Option String

/-- A setting resolver: one entry of the `configurers` list. -/
abbrev Configurer := Env → Config → Except ConfigErr Config

/-- Modelled from the spec: the `requireEnv` helper called by the configurers is
not among the sources; per spec section 6, absence of a required name is a fatal
startup error and a present value is passed through. -/
def requireEnv (env : Env) (name : String) : Except ConfigErr String :=
  match env name with
  | some v => .ok v
  | none => .error (.missingEnv name)

/-- Modelled from the spec: the `lookupInt` helper is not among the sources; an
absent optional name falls back to the stated default, and a present value must
parse as an integer or loading fails. -/
def lookupInt (env : Env) (name : String) (dflt : Int) : Except ConfigErr Int :=
  match env name with
  | none => .ok dflt
  | some v =>
      match v.toInt? with
      | some i => .ok i
      | none => .error (.badInt name v)

/-- Modelled from the spec: the `lookupBool` helper is not among the sources;
per the USERNAME_IS_EMAIL comment, a truthy string is one of "t", "true",
"yes", an absent name falls back to the default. -/
def lookupBool (env : Env) (name : String) (dflt : Bool) : Except ConfigErr Bool :=
  match env name with
  | none => .ok dflt
  | some v => .ok (v == "t" || v == "true" || v == "yes")

/-- APP_DOMAINS resolver.  The Go code computes `strings.Split(",", val)`: the
string being split is the literal comma and the environment value is the
separator. -/
def appDomainsConfigurer : Configurer := fun env c =>
  match requireEnv env "APP_DOMAINS" with
  | .error e => .error e
  | .ok val => .ok { c with applicationDomains := goSplit "," val }

/-- AUTHN_URL resolver.  Inside the `if err == nil` block the Go code declares a
fresh `err` with `:=`, shadowing the function-level one, so the parse error of
`url.Parse` never reaches the `return err`: a present but unparseable value
yields success with none of the three fields set. -/
def authnUrlConfigurer : Configurer := fun env c =>
  match requireEnv env "AUTHN_URL" with
  | .error e => .error e
  | .ok val =>
      match urlParse val with
      | some u => .ok { c with authNURL := some u, mountedPath := u.path,
                               forceSSL := (u.scheme == "https") }
      | none => .ok c

/-- SECRET_KEY_BASE resolver: the base secret is never stored; only the key
derived with the fixed salt "session-key-salt" is. -/
def secretKeyBaseConfigurer : Configurer := fun env c =>
  match requireEnv env "SECRET_KEY_BASE" with
  | .error e => .error e
  | .ok val => .ok { c with sessionSigningKey := derive (strBytes val) "session-key-salt" }

/-- BCRYPT_COST resolver: default 11, rejected below 10. -/
def bcryptCostConfigurer : Configurer := fun env c =>
  match lookupInt env "BCRYPT_COST" 11 with
  | .error e => .error e
  | .ok cost =>
      if cost < 10 then .error (.bcryptCostTooLow cost)
      else .ok { c with bcryptCost := cost }

/-- PASSWORD_POLICY_SCORE resolver: default 2, stored without further checks. -/
def passwordPolicyScoreConfigurer : Configurer := fun env c =>
  match lookupInt env "PASSWORD_POLICY_SCORE" 2 with
  | .error e => .error e
  | .ok s => .ok { c with passwordMinComplexity := s }

/-- DATABASE_URL resolver, with the same `err` shadowing as AUTHN_URL: a parse
failure is swallowed and the field stays nil. -/
def databaseUrlConfigurer : Configurer := fun env c =>
  match requireEnv env "DATABASE_URL" with
  | .error e => .error e
  | .ok val =>
      match urlParse val with
      | some u => .ok { c with databaseURL := some u }
      | none => .ok c

/-- REDIS_URL resolver, with the same `err` shadowing as AUTHN_URL. -/
def redisUrlConfigurer : Configurer := fun env c =>
  match requireEnv env "REDIS_URL" with
  | .error e => .error e
  | .ok val =>
      match urlParse val with
      | some u => .ok { c with redisURL := some u }
      | none => .ok c

/-- USERNAME_IS_EMAIL resolver. -/
def usernameIsEmailConfigurer : Configurer := fun env c =>
  match lookupBool env "USERNAME_IS_EMAIL" false with
  | .error e => .error e
  | .ok b => .ok { c with usernameIsEmail := b }

/-- EMAIL_USERNAME_DOMAINS resolver: optional, via `os.LookupEnv`; when present
the Go code computes `strings.Split(",", val)` — arguments swapped, as in
APP_DOMAINS. -/
def emailUsernameDomainsConfigurer : Configurer := fun env c =>
  match env "EMAIL_USERNAME_DOMAINS" with
  | some val => .ok { c with usernameDomains := goSplit "," val }
  | none => .ok c

/-- REFRESH_TOKEN_TTL resolver: default `86400 * 365.25 = 31557600` seconds. -/
def refreshTokenTTLConfigurer : Configurer := fun env c =>
  match lookupInt env "REFRESH_TOKEN_TTL" 31557600 with
  | .error e => .error e
  | .ok ttl => .ok { c with refreshTokenTTL := ttl }

/-- ACCESS_TOKEN_TTL resolver: default 3600 seconds. -/
def accessTokenTTLConfigurer : Configurer := fun env c =>
  match lookupInt env "ACCESS_TOKEN_TTL" 3600 with
  | .error e => .error e
  | .ok ttl => .ok { c with accessTokenTTL := ttl }

/-- The fixed, non-configurable username minimum length. -/
def usernameMinLengthConfigurer : Configurer := fun _ c =>
  .ok { c with usernameMinLength := 3 }

/-- The declarative resolver list, in source order. -/
def configurers : List Configurer :=
  [appDomainsConfigurer, authnUrlConfigurer, secretKeyBaseConfigurer,
   bcryptCostConfigurer, passwordPolicyScoreConfigurer, databaseUrlConfigurer,
   redisUrlConfigurer, usernameIsEmailConfigurer, emailUsernameDomainsConfigurer,
   refreshTokenTTLConfigurer, accessTokenTTLConfigurer, usernameMinLengthConfigurer]

/-- Modelled from the spec: the `configure` helper invoked by `ReadEnv` is not
among the sources; per spec section 4.2 the resolvers are applied in sequence
against the accumulating configuration and the loader stops at the first
failure and propagates it. -/
def runConfigurers (env : Env) : List Configurer → Config → Except ConfigErr Config
  | [], c => .ok c
  | f :: fs, c =>
      match f env c with
      | .error e => .error e
      | .ok c' => runConfigurers env fs c'

/-- The loading pipeline `configure(configurers)` run by `ReadEnv` (the
subsequent RSA identity-key generation is outside the resolver list and not
modelled). -/
def configure (env : Env) : Except ConfigErr Config :=
  runConfigurers env configurers emptyConfig

/-! ## Concrete stores and environments used by witnesses and failing-input evaluations -/

/-- A live account, id 1. -/
def acctAlice : Account :=
  { id := 1, username := "alice", password := [7], locked := false,
    requireNewPassword := false, passwordChangedAt := 0, createdAt := 0,
    updatedAt := 0, deletedAt := none }

/-- An archived account, id 1, as storage-level anonymization leaves it. -/
def acctBobArchived : Account :=
  { id := 1, username := "bob", password := [], locked := false,
    requireNewPassword := false, passwordChangedAt := 0, createdAt := 0,
    updatedAt := 0, deletedAt := some 5 }

/-- An archived account, id 1, carrying the stored anonymized username. -/
def acctAnonArchived : Account :=
  { id := 1, username := "@feedbeef", password := [], locked := false,
    requireNewPassword := false, passwordChangedAt := 0, createdAt := 0,
    updatedAt := 0, deletedAt := some 5 }

/-- An oauth link owned by account 1. -/
def oauthGoogle : OauthAccount :=
  { accountId := 1, provider := "google", providerID := "g1",
    accessToken := "tok", createdAt := 0, updatedAt := 0 }

/-- Store with the single live account `acctAlice` and its oauth link. -/
def storeAliceLinked : Store :=
  { accounts := [acctAlice], oauthAccounts := [oauthGoogle], nextId := 2 }

/-- Store with the single live account `acctAlice` and no links. -/
def storeAlice : Store :=
  { accounts := [acctAlice], oauthAccounts := [], nextId := 2 }

/-- Store with only the archived account `acctBobArchived`. -/
def storeBobArchived : Store :=
  { accounts := [acctBobArchived], oauthAccounts := [], nextId := 2 }

/-- Store with the archived account `acctAnonArchived` still linked to a provider. -/
def storeAnonLinked : Store :=
  { accounts := [acctAnonArchived], oauthAccounts := [oauthGoogle], nextId := 2 }

/-- The empty store a fresh deployment starts from. -/
def storeEmpty : Store := { accounts := [], oauthAccounts := [], nextId := 1 }

/-- An account with the forced-rotation flag set. -/
def acctCarolRnp : Account :=
  { id := 1, username := "carol", password := [3], locked := false,
    requireNewPassword := true, passwordChangedAt := 0, createdAt := 0,
    updatedAt := 0, deletedAt := none }

/-- Store holding only `acctCarolRnp`. -/
def storeCarolRnp : Store :=
  { accounts := [acctCarolRnp], oauthAccounts := [], nextId := 2 }

/-- Environment binding both domain-list settings to a two-domain value. -/
def envSwapped : Env := fun n =>
  if n == "APP_DOMAINS" then some "a.example.com,b.example.com"
  else if n == "EMAIL_USERNAME_DOMAINS" then some "a.example.com,b.example.com"
  else none

/-- Environment with every required setting present but AUTHN_URL unparseable
(`://x` has no protocol scheme). -/
def envBadAuthnUrl : Env := fun n =>
  if n == "APP_DOMAINS" then some "a.example.com"
  else if n == "AUTHN_URL" then some "://x"
  else if n == "SECRET_KEY_BASE" then some "s3cr3t"
  else if n == "DATABASE_URL" then some "sqlite3://localhost/authn-go"
  else if n == "REDIS_URL" then some "redis://127.0.0.1:6379/11"
  else none

/-! ## Structural facts about `derive`: output length 256, every byte below 256 -/

theorem sha256_length (msg : List Nat) : (sha256 msg).length = 32 := by
  simp [sha256, wordBytes]

theorem wordBytes_mem_lt (w : Nat) : ∀ b ∈ wordBytes w, b < 256 := by
  intro b hb
  simp only [wordBytes, List.mem_cons, List.not_mem_nil, or_false] at hb
  rcases hb with hb | hb | hb | hb <;> omega

theorem sha256_mem_lt (msg : List Nat) : ∀ b ∈ sha256 msg, b < 256 := by
  intro b hb
  simp only [sha256, List.mem_append] at hb
  rcases hb with ((((((h | h) | h) | h) | h) | h) | h) | h <;> exact wordBytes_mem_lt _ _ h

theorem hmacSha256_length (key msg : List Nat) : (hmacSha256 key msg).length = 32 :=
  sha256_length _

theorem hmacSha256_mem_lt (key msg : List Nat) : ∀ b ∈ hmacSha256 key msg, b < 256 :=
  sha256_mem_lt _

theorem zipXor_mem_lt : ∀ (t u : List Nat), (∀ b ∈ t, b < 256) → (∀ b ∈ u, b < 256) →
    ∀ b ∈ List.zipWith (fun a b => a ^^^ b) t u, b < 256
  | [], _, _, _ => by simp
  | _ :: _, [], _, _ => by simp
  | x :: t, y :: u, ht, hu => by
    intro b hb
    simp only [List.zipWith, List.mem_cons] at hb
    rcases hb with hb | hb
    · have hx := ht x (by simp)
      have hy := hu y (by simp)
      have hlt : x ^^^ y < 2 ^ 8 := Nat.xor_lt_two_pow (by omega) (by omega)
      omega
    · exact zipXor_mem_lt t u (fun b hb => ht b (by simp [hb])) (fun b hb => hu b (by simp [hb])) b hb

theorem pbkdf2Iter_length (pw : List Nat) :
    ∀ (n : Nat) (u t : List Nat), t.length = 32 → (pbkdf2Iter pw n u t).length = 32
  | 0, _, _, ht => ht
  | n + 1, u, t, ht => by
    apply pbkdf2Iter_length pw n
    rw [List.length_zipWith, ht, hmacSha256_length]
    exact min_self 32

theorem pbkdf2Iter_mem_lt (pw : List Nat) :
    ∀ (n : Nat) (u t : List Nat), (∀ b ∈ t, b < 256) →
      ∀ b ∈ pbkdf2Iter pw n u t, b < 256
  | 0, _, _, ht => ht
  | n + 1, u, t, ht => by
    apply pbkdf2Iter_mem_lt pw n
    exact zipXor_mem_lt t _ ht (hmacSha256_mem_lt pw u)

theorem pbkdf2Block_length (pw salt : List Nat) (iter blockIdx : Nat) :
    (pbkdf2Block pw salt iter blockIdx).length = 32 :=
  pbkdf2Iter_length pw _ _ _ (hmacSha256_length _ _)

theorem pbkdf2Block_mem_lt (pw salt : List Nat) (iter blockIdx : Nat) :
    ∀ b ∈ pbkdf2Block pw salt iter blockIdx, b < 256 :=
  pbkdf2Iter_mem_lt pw _ _ _ (hmacSha256_mem_lt _ _)

theorem pbkdf2Blocks_length (pw salt : List Nat) (iter : Nat) :
    ∀ n, (pbkdf2Blocks pw salt iter n).length = 32 * n
  | 0 => rfl
  | n + 1 => by
    simp only [pbkdf2Blocks, List.length_append, pbkdf2Blocks_length pw salt iter n,
      pbkdf2Block_length]
    ring

theorem pbkdf2Blocks_mem_lt (pw salt : List Nat) (iter : Nat) :
    ∀ n, ∀ b ∈ pbkdf2Blocks pw salt iter n, b < 256
  | 0 => by simp [pbkdf2Blocks]
  | n + 1 => by
    intro b hb
    simp only [pbkdf2Blocks, List.mem_append] at hb
    rcases hb with hb | hb
    · exact pbkdf2Blocks_mem_lt pw salt iter n b hb
    · exact pbkdf2Block_mem_lt pw salt iter (n + 1) b hb

theorem derive_length (base : List Nat) (salt : String) : (derive base salt).length = 256 := by
  simp [derive, pbkdf2, List.length_take, pbkdf2Blocks_length]

theorem derive_mem_lt (base : List Nat) (salt : String) : ∀ b ∈ derive base salt, b < 256 := by
  intro b hb
  have : b ∈ pbkdf2Blocks base (strBytes salt) 200000 ((256 + 31) / 32) :=
    List.mem_of_mem_take hb
  exact pbkdf2Blocks_mem_lt _ _ _ _ b this

theorem list_eq_of_getD_mod_eq (l1 l2 : List Nat) (h1 : l1.length = 256) (h2 : l2.length = 256)
    (hb1 : ∀ b ∈ l1, b < 256) (hb2 : ∀ b ∈ l2, b < 256)
    (h : ∀ i : Fin 256, l1.getD i 0 % 256 = l2.getD i 0 % 256) : l1 = l2 := by
  apply List.ext_getElem (by rw [h1, h2])
  intro i hi1 hi2
  have hi : i < 256 := by rw [h1] at hi1; exact hi1
  have hv := h ⟨i, hi⟩
  rw [List.getD_eq_getElem?_getD, List.getD_eq_getElem?_getD,
    List.getElem?_eq_getElem hi1, List.getElem?_eq_getElem hi2] at hv
  simp only [Option.getD_some] at hv
  have b1 := hb1 _ (List.getElem_mem hi1)
  have b2 := hb2 _ (List.getElem_mem hi2)
  omega

theorem deriveFin_val (base : List Nat) (s : String) (i : Fin 256) :
    (deriveFin base s i).val = (derive base s).getD i 0 % 256 := rfl

theorem deriveFin_eq_iff (base : List Nat) {s1 s2 : String}
    (h : deriveFin base s1 = deriveFin base s2) : derive base s1 = derive base s2 :=
  list_eq_of_getD_mod_eq (derive base s1) (derive base s2)
    (derive_length base s1) (derive_length base s2)
    (derive_mem_lt base s1) (derive_mem_lt base s2)
    (fun i => ((deriveFin_val base s1 i).symm.trans
      (congrArg Fin.val (congrFun h i))).trans (deriveFin_val base s2 i))

/-! ## Helper lemmas about the store embedding -/

theorem find?_map_of_pred_preserved {α : Type} (p : α → Bool) (g : α → α)
    (h : ∀ a, p (g a) = p a) :
    ∀ l : List α, (l.map g).find? p = (l.find? p).map g := by
  intro l
  induction l with
  | nil => rfl
  | cons a l ih =>
    by_cases hp : p a = true
    · simp [List.find?_cons, h, hp]
    · have hp' : p a = false := by revert hp; cases p a <;> simp
      simp [List.find?_cons, h, hp', ih]

theorem updateWhere_pred_preserved (id2 : Nat) (f : Account → Account)
    (hid : ∀ a, (f a).id = a.id) (id' : Nat) :
    ∀ a : Account, ((if a.id == id2 then f a else a).id == id') = (a.id == id') := by
  intro a
  by_cases h : a.id == id2 <;> simp [h, hid]

theorem lookup_updateWhere (st : Store) (id2 id' : Nat) (f : Account → Account)
    (hid : ∀ a, (f a).id = a.id) :
    lookupAccount (updateWhere st id2 f) id' =
      (lookupAccount st id').map (fun a => if a.id == id2 then f a else a) := by
  unfold lookupAccount updateWhere
  exact find?_map_of_pred_preserved _ _ (updateWhere_pred_preserved id2 f hid id') st.accounts

theorem map_id_of_eq_id {α : Type} (g : α → α) :
    ∀ l : List α, (∀ a ∈ l, g a = a) → l.map g = l := by
  intro l
  induction l with
  | nil => intro _; rfl
  | cons a l ih =>
    intro h
    simp only [List.map_cons, h a (by simp)]
    rw [ih (fun x hx => h x (by simp [hx]))]

theorem updateWhere_no_match (st : Store) (id : Nat) (f : Account → Account)
    (h : ∀ a ∈ st.accounts, a.id ≠ id) : updateWhere st id f = st := by
  unfold updateWhere
  have hmap : st.accounts.map (fun a => if a.id == id then f a else a) = st.accounts := by
    apply map_id_of_eq_id
    intro a ha
    simp [h a ha]
  rw [hmap]

theorem create_of_not_taken (st : Store) (u : String) (p : List Nat) (now : Nat)
    (h : usernameTakenByLive st u = false) :
    create st u p now = .ok (freshAccount st u p now, afterCreate st u p now) := by
  unfold create
  rw [h]
  rfl

theorem create_of_taken (st : Store) (u : String) (p : List Nat) (now : Nat)
    (h : usernameTakenByLive st u = true) :
    create st u p now = .error .constraintViolation := by
  unfold create
  rw [h]
  rfl

theorem rnp_preserved_update (st : Store) (id2 id : Nat) (f : Account → Account)
    (hid : ∀ x, (f x).id = x.id)
    (hf : ∀ x, x.requireNewPassword = true → (f x).requireNewPassword = true)
    (a a' : Account) (h1 : lookupAccount st id = some a) (h2 : a.requireNewPassword = true)
    (h3 : lookupAccount (updateWhere st id2 f) id = some a') :
    a'.requireNewPassword = true := by
  rw [lookup_updateWhere st id2 id f hid, h1] at h3
  simp only [Option.map] at h3
  by_cases hc : (a.id == id2) = true
  · rw [if_pos hc] at h3
    injection h3 with h4
    rw [← h4]
    exact hf a h2
  · rw [if_neg hc] at h3
    injection h3 with h4
    rw [← h4]
    exact h2

/-! ## The claims -/

/-- **C1.** (refuting atomicity) `Archive` runs its two statements as separate
`Exec` calls with no transaction: with account 1 and its oauth link in the
store, an `Archive(1)` whose accounts-UPDATE fails reports the error, yet the
oauth-link deletion of the first statement is already applied — the state
differs from the initial one (link gone, account not archived), so the
account-update failure does not leave the state unchanged. -/
theorem archive_not_atomic :
    (archiveGo storeAliceLinked 1 "feedbeef" 7 false true).1 = some .storageUnavailable ∧
    (archiveGo storeAliceLinked 1 "feedbeef" 7 false true).2 ≠ storeAliceLinked ∧
    (archiveGo storeAliceLinked 1 "feedbeef" 7 false true).2.oauthAccounts = [] ∧
    (archiveGo storeAliceLinked 1 "feedbeef" 7 false true).2.accounts
      = storeAliceLinked.accounts := by
  refine ⟨rfl, ?_, rfl, rfl⟩
  decide

/-- **C2.** For every account `a` with non-null `deletedAt` and every username
`u`, `FindByUsername u` never returns `a`, and whatever it does return has null
`deletedAt`: the query's `deleted_at IS NULL` conjunct keeps archived accounts
invisible to this lookup. -/
theorem findByUsername_excludes_archived (st : Store) (u : String) (a : Account)
    (ha : a ∈ st.accounts) (hd : a.deletedAt.isSome = true) :
    (∀ r, findByUsername st u = some r → r.deletedAt = none) ∧
    findByUsername st u ≠ some a := by
  have hlive : ∀ r, findByUsername st u = some r → r.deletedAt = none := by
    intro r hr
    have hp := List.find?_some hr
    simp only [Bool.and_eq_true, beq_iff_eq, Option.isNone_iff_eq_none] at hp
    exact hp.2
  refine ⟨hlive, fun hcontra => ?_⟩
  have := hlive a hcontra
  rw [this] at hd
  exact Bool.false_ne_true hd

/-- Witness for C2 at a concrete store: an archived "bob" is not found under
its stored username. -/
theorem findByUsername_excludes_archived_witness :
    findByUsername storeBobArchived "bob" ≠ some acctBobArchived :=
  (findByUsername_excludes_archived storeBobArchived "bob" acctBobArchived
    (by simp [storeBobArchived]) (by rfl)).2

/-- **C3.** `Find` blanks the username of every archived account it returns,
whatever is stored for it; and `Archive(id)` immediately followed by `Find(id)`
yields a record with empty username and `deletedAt` stamped with the archive
time. -/
theorem find_blanks_archived (st : Store) (id : Nat) (rand : String) (now : Nat) :
    (∀ r, find st id = some r → r.deletedAt.isSome = true → r.username = "") ∧
    (∀ r, find (archive st id rand now) id = some r →
      r.username = "" ∧ r.deletedAt = some now) := by
  constructor
  · intro r hr hd
    unfold find at hr
    cases hl : lookupAccount st id with
    | none => rw [hl] at hr; exact absurd hr (by simp)
    | some a =>
      rw [hl] at hr
      by_cases hda : a.deletedAt.isSome = true
      · simp only [hda, if_pos] at hr
        cases hr; rfl
      · simp only [hda] at hr
        simp at hr
        rw [← hr] at hd
        exact absurd hd hda
  · intro r hr
    unfold find at hr
    have harch : lookupAccount (archive st id rand now) id =
        (lookupAccount st id).map (fun a => if a.id == id then
          { a with username := "@" ++ rand, password := [], deletedAt := some now }
          else a) := by
      unfold archive archiveUpdate
      have hdel : lookupAccount (deleteOauthAccounts st id) = lookupAccount st := by
        funext i; rfl
      rw [lookup_updateWhere (deleteOauthAccounts st id) id id
        (fun a => { a with username := "@" ++ rand, password := [], deletedAt := some now })
        (fun a => rfl), hdel]
    rw [harch] at hr
    cases hl : lookupAccount st id with
    | none => rw [hl] at hr; exact absurd hr (by simp)
    | some a =>
      rw [hl] at hr
      simp only [Option.map] at hr
      by_cases hid : (a.id == id) = true
      · simp only [hid, if_pos] at hr
        simp only [Option.isSome_some, if_pos] at hr
        cases hr
        exact ⟨rfl, rfl⟩
      · exfalso
        have hfind : st.accounts.find? (fun x => x.id == id) = some a := hl
        have hp := List.find?_some hfind
        exact hid hp

/-- Witness for C3: archiving account 1 and fetching it back yields an empty
username and `deletedAt = 9`. -/
theorem find_blanks_archived_witness :
    ∃ r, find (archive storeAlice 1 "d41d8cd98f00b204e9800998ecf8427e" 9) 1 = some r ∧
      r.username = "" ∧ r.deletedAt = some 9 := by
  refine ⟨_, rfl, ?_⟩
  exact (find_blanks_archived storeAlice 1 "d41d8cd98f00b204e9800998ecf8427e" 9).2 _ rfl

/-- **C4.** Username uniqueness binds only live accounts: from any store with
no live "alice", `Create("alice", pw)` succeeds, a second
`Create("alice", pw2)` fails with `ConstraintViolation`, and after archiving
the first account a third `Create("alice", pw3)` succeeds — archived rows do
not block reuse of the username. -/
theorem create_collides_only_with_live (st : Store) (pw pw2 pw3 : List Nat)
    (t1 t2 t3 t4 : Nat) (rand : String)
    (h : ∀ a ∈ st.accounts, ¬(a.username = "alice" ∧ a.deletedAt = none)) :
    ∃ a1 st1, create st "alice" pw t1 = .ok (a1, st1) ∧
      create st1 "alice" pw2 t2 = .error .constraintViolation ∧
      ∃ a3 st3, create (archive st1 a1.id rand t3) "alice" pw3 t4 = .ok (a3, st3) := by
  have hfree : usernameTakenByLive st "alice" = false := by
    unfold usernameTakenByLive
    rw [List.any_eq_false]
    intro a ha
    simp only [Bool.and_eq_true, beq_iff_eq, Option.isNone_iff_eq_none]
    exact h a ha
  refine ⟨_, _, create_of_not_taken st "alice" pw t1 hfree, ?_, ?_⟩
  · apply create_of_taken
    unfold usernameTakenByLive afterCreate
    simp [List.any_append, freshAccount]
  · have hfree3 : usernameTakenByLive
        (archive (afterCreate st "alice" pw t1) (freshAccount st "alice" pw t1).id rand t3)
        "alice" = false := by
      unfold usernameTakenByLive archive archiveUpdate deleteOauthAccounts updateWhere afterCreate
      simp only [freshAccount]
      rw [List.any_map, List.any_append]
      simp only [Bool.or_eq_false_iff]
      constructor
      · rw [List.any_eq_false]
        intro a ha
        by_cases hid : (a.id == st.nextId) = true
        · simp [Function.comp, hid]
        · simp only [Function.comp, hid]
          simp only [Bool.and_eq_true, beq_iff_eq, Option.isNone_iff_eq_none, if_neg]
          exact h a ha
      · simp [Function.comp]
    exact ⟨_, _, create_of_not_taken _ "alice" pw3 t4 hfree3⟩

/-- Witness for C4, run from the empty store. -/
theorem create_collides_only_with_live_witness :
    ∃ a1 st1, create storeEmpty "alice" [1] 10 = .ok (a1, st1) ∧
      create st1 "alice" [2] 11 = .error .constraintViolation ∧
      ∃ a3 st3, create (archive st1 a1.id "feedbeef" 12) "alice" [3] 13 = .ok (a3, st3) :=
  create_collides_only_with_live storeEmpty [1] [2] [3] 10 11 12 13 "feedbeef"
    (by simp [storeEmpty])

/-- **C5.** A successful `SetPassword(id, p)` leaves the account with password
`p`, `requireNewPassword = false` and both `passwordChangedAt` and `updatedAt`
at the call's current time, whatever the prior flag value; and no repository
operation other than `SetPassword` ever moves `requireNewPassword` from `true`
to `false` on any stored account. -/
theorem setPassword_spec :
    (∀ st id p now a a', lookupAccount st id = some a →
        lookupAccount (setPassword st id p now) id = some a' →
        a'.password = p ∧ a'.requireNewPassword = false ∧
        a'.passwordChangedAt = now ∧ a'.updatedAt = now) ∧
    (∀ op : Op, op.isSetPasswordOp = false → ∀ st id a a',
        lookupAccount st id = some a → a.requireNewPassword = true →
        lookupAccount (runOp op st) id = some a' → a'.requireNewPassword = true) := by
  constructor
  · intro st id p now a a' h1 h2
    unfold setPassword at h2
    rw [lookup_updateWhere st id id (setPasswordRow p now) (fun x => rfl), h1] at h2
    simp only [Option.map] at h2
    have hfind : st.accounts.find? (fun x => x.id == id) = some a := h1
    have hc := List.find?_some hfind
    rw [if_pos hc] at h2
    injection h2 with h4
    rw [← h4]
    exact ⟨rfl, rfl, rfl, rfl⟩
  · intro op hop st id a a' h1 h2 h3
    cases op with
    | createOp u p2 n2 =>
      simp only [runOp] at h3
      cases htaken : usernameTakenByLive st u with
      | true =>
        rw [create_of_taken st u p2 n2 htaken] at h3
        have h4 := h1.symm.trans h3
        injection h4 with h4
        rw [← h4]
        exact h2
      | false =>
        rw [create_of_not_taken st u p2 n2 htaken] at h3
        have h5 : lookupAccount (afterCreate st u p2 n2) id = some a' := h3
        unfold lookupAccount afterCreate at h5
        rw [List.find?_append] at h5
        have hfind : st.accounts.find? (fun x => x.id == id) = some a := h1
        rw [hfind] at h5
        injection h5 with h4
        rw [← h4]
        exact h2
    | addOauthOp aid pr pid tok n2 =>
      have h4 := h1.symm.trans h3
      injection h4 with h4
      rw [← h4]
      exact h2
    | archiveOp id2 r n2 =>
      exact rnp_preserved_update (deleteOauthAccounts st id2) id2 id
        (fun x => { x with username := "@" ++ r, password := [], deletedAt := some n2 })
        (fun x => rfl) (fun x hx => hx) a a' h1 h2 h3
    | lockOp id2 n2 =>
      exact rnp_preserved_update st id2 id
        (fun x => { x with locked := true, updatedAt := n2 })
        (fun x => rfl) (fun x hx => hx) a a' h1 h2 h3
    | unlockOp id2 n2 =>
      exact rnp_preserved_update st id2 id
        (fun x => { x with locked := false, updatedAt := n2 })
        (fun x => rfl) (fun x hx => hx) a a' h1 h2 h3
    | requireNewPasswordO id2 n2 =>
      exact rnp_preserved_update st id2 id
        (fun x => { x with requireNewPassword := true, updatedAt := n2 })
        (fun x => rfl) (fun x _ => rfl) a a' h1 h2 h3
    | setPasswordOp id2 p2 n2 =>
      exact absurd hop (by simp [Op.isSetPasswordOp])
    | updateUsernameOp id2 u2 n2 =>
      exact rnp_preserved_update st id2 id
        (fun x => { x with username := u2, updatedAt := n2 })
        (fun x => rfl) (fun x hx => hx) a a' h1 h2 h3

/-- Witness for C5: a concrete `SetPassword` clears the flag and stamps the
times, while a `Lock` on the same account leaves the flag set. -/
theorem setPassword_spec_witness :
    (∃ a', lookupAccount (setPassword storeCarolRnp 1 [9] 4) 1 = some a' ∧
      a'.password = [9] ∧ a'.requireNewPassword = false ∧
      a'.passwordChangedAt = 4 ∧ a'.updatedAt = 4) ∧
    (∃ a', lookupAccount (runOp (.lockOp 1 6) storeCarolRnp) 1 = some a' ∧
      a'.requireNewPassword = true) := by
  constructor
  · exact ⟨_, rfl, setPassword_spec.1 storeCarolRnp 1 [9] 4 _ _ rfl rfl⟩
  · exact ⟨_, rfl, setPassword_spec.2 (.lockOp 1 6) rfl storeCarolRnp 1 _ _ rfl rfl rfl⟩

/-- **C6 (counterexample).** The universally quantified salt-separation half of
the claim is false of the function as written: `derive` maps the infinitely
many salts into the finite space of 256-byte outputs, so some two distinct
salts share an output (pigeonhole over `Fin 256 → Fin 256`; exhibiting such a
pair concretely would amount to finding a PBKDF2 collision, but the universal
statement is already refuted by counting). -/
theorem derive_salt_separation_false :
    ¬ (∀ (b : List Nat) (s1 s2 : String), s1 ≠ s2 → derive b s1 ≠ derive b s2) := by
  intro hclaim
  obtain ⟨s1, s2, hne, heq⟩ := Finite.exists_ne_map_eq_of_infinite (deriveFin [])
  exact hclaim [] s1 s2 hne (deriveFin_eq_iff [] heq)

/-- **C6 (amended).** `derive` is deterministic in its inputs: it is a pure
function of the base secret and the salt — calling it twice on the same inputs
yields byte-identical output — and that output always has the fixed 256-byte
length; distinct salts are not universally guaranteed distinct outputs. -/
theorem derive_deterministic (b : List Nat) (s : String) :
    derive b s = derive b s ∧ (derive b s).length = 256 :=
  ⟨rfl, derive_length b s⟩

/-- **C7.** (refuting the claimed split) With
`APP_DOMAINS=a.example.com,b.example.com` the resolver stores `[","]`, not the
two domains: the code calls `strings.Split(",", val)`, splitting the literal
comma string by the environment value instead of the other way around.  The
same swapped call sits in the EMAIL_USERNAME_DOMAINS resolver. -/
theorem appDomains_split_swapped :
    (appDomainsConfigurer envSwapped emptyConfig).map (fun c => c.applicationDomains)
      = .ok [","] ∧
    (emailUsernameDomainsConfigurer envSwapped emptyConfig).map (fun c => c.usernameDomains)
      = .ok [","] ∧
    ([","] : List String) ≠ ["a.example.com", "b.example.com"] :=
  ⟨rfl, rfl, by decide⟩

/-- **C8.** (refuting fail-fast on unparseable URLs) `url.Parse` rejects
`://x` (missing protocol scheme), yet configuration loading succeeds and
produces a configuration whose `AuthNURL` is simply absent: the resolver's
shadowed `err` swallows the parse failure instead of propagating it, so a
partially-valid configuration escapes startup. -/
theorem configure_swallows_url_parse_failure :
    urlParse "://x" = none ∧
    ∃ c, configure envBadAuthnUrl = .ok c ∧ c.authNURL = none := by
  refine ⟨rfl, ⟨_, rfl, ?_⟩⟩
  rfl

/-- **C9.** The five single-statement mutations on an id that references no row
affect zero rows and complete successfully: the store is left entirely
unchanged and no `NotFound` (or any other) error arises from the miss. -/
theorem mutations_on_missing_id_noop (st : Store) (id now : Nat) (p : List Nat) (u : String)
    (h : ∀ a ∈ st.accounts, a.id ≠ id) :
    lock st id now = st ∧ unlock st id now = st ∧ requireNewPasswordOp st id now = st ∧
    setPassword st id p now = st ∧ updateUsername st id u now = st :=
  ⟨updateWhere_no_match st id _ h, updateWhere_no_match st id _ h,
   updateWhere_no_match st id _ h, updateWhere_no_match st id _ h,
   updateWhere_no_match st id _ h⟩

/-- Witness for C9: id 99 references no row of the concrete store. -/
theorem mutations_on_missing_id_noop_witness :
    lock storeAlice 99 3 = storeAlice ∧ unlock storeAlice 99 3 = storeAlice ∧
    requireNewPasswordOp storeAlice 99 3 = storeAlice ∧
    setPassword storeAlice 99 [1] 3 = storeAlice ∧
    updateUsername storeAlice 99 "x" 3 = storeAlice :=
  mutations_on_missing_id_noop storeAlice 99 3 [1] "x" (by decide)

/-- **C10.** `FindByOauthAccount` resolves through the oauth link with no
`deleted_at` filter and no blanking: when the linked account is archived it is
returned verbatim, stored (randomized) username included. -/
theorem findByOauthAccount_returns_archived (st : Store) (provider pid : String)
    (oa : OauthAccount) (acct : Account)
    (h1 : st.oauthAccounts.find? (fun o => o.provider == provider && o.providerID == pid) = some oa)
    (h2 : st.accounts.find? (fun a => a.id == oa.accountId) = some acct)
    (h3 : acct.deletedAt.isSome = true) :
    findByOauthAccount st provider pid = some acct ∧ acct.deletedAt.isSome = true := by
  refine ⟨?_, h3⟩
  unfold findByOauthAccount
  rw [h1]
  exact h2

/-- Witness for C10: a link to the archived account 1 returns it with its
stored anonymized username intact. -/
theorem findByOauthAccount_returns_archived_witness :
    findByOauthAccount storeAnonLinked "google" "g1" = some acctAnonArchived :=
  (findByOauthAccount_returns_archived storeAnonLinked "google" "g1"
    oauthGoogle acctAnonArchived rfl rfl rfl).1

end Authn
